import Mathlib

/-!
Shallow embedding of the SweRV-ISS memory subsystem (`src/Memory.hpp`) and of
the instruction-identity catalogue (`src/InstId.hpp`), together with theorems
settling the specification claims about them.

Machine integers are modelled as `Nat` with explicit `% 2 ^ w` where the C++
types truncate.  The backing store `data_` (a `uint8_t*`) is modelled as a
total function `Nat → Nat` whose reads are taken `% 256`; typed loads and
stores are little-endian byte sequences, exactly as the source's
`reinterpret_cast` loads/stores on a little-endian host.  Fallible operations
return `Option` (reads) or a `Bool × Memory` pair (writes and pokes), the
`Bool` being the C++ return value.
-/

namespace WdRiscv

/-- Physical memory attributes of a page.  Modelled from the spec: the `Pma`
class lives in `PmaManager.hpp`, which is not under `src/`; spec section 3
describes it as a per-page record with bitfields
`{read, write, exec, mmr, iccm, dccm}` compared bitwise, matching the
`PageAttribs` struct that is in `src/Memory.hpp`.  Field `reg` is the
memory-mapped-register (`mmr`) bit, named as in `PageAttribs::reg_`. -/
structure Pma where
  read : Bool := false
  write : Bool := false
  exec : Bool := false
  reg : Bool := false
  iccm : Bool := false
  dccm : Bool := false
deriving DecidableEq

/-- Mirrors `PageAttribs::isRead` (`src/Memory.hpp:88`). -/
def Pma.isRead (p : Pma) : Bool := p.read

/-- Mirrors `PageAttribs::isWrite` (`src/Memory.hpp:93`). -/
def Pma.isWrite (p : Pma) : Bool := p.write

/-- Mirrors `PageAttribs::isExec` (`src/Memory.hpp:81`). -/
def Pma.isExec (p : Pma) : Bool := p.exec

/-- Mirrors `PageAttribs::isMemMappedReg` (`src/Memory.hpp:105`). -/
def Pma.isMemMappedReg (p : Pma) : Bool := p.reg

/-- Mirrors `PageAttribs::isMapped` (`src/Memory.hpp:113`): a page is mapped
iff any of read/write/exec is set. -/
def Pma.isMapped (p : Pma) : Bool := p.read || p.write || p.exec

/-- Mirrors `Memory::Reservation` (`src/Memory.hpp:688`). -/
structure Reservation where
  addr : Nat := 0
  size : Nat := 0
  valid : Bool := false
deriving DecidableEq

/-- Mirrors `Memory::LastWriteData` (`src/Memory.hpp:760`). -/
structure LastWriteData where
  size : Nat := 0
  addr : Nat := 0
  value : Nat := 0
  prevValue : Nat := 0
deriving DecidableEq

/-- Little-endian read of `w` bytes starting at `addr`; models the source's
`*(reinterpret_cast<const T*>(data_ + address))` on a little-endian host.
Each byte is taken `% 256` to model the `uint8_t` cells of `data_`. -/
def readBytes (data : Nat → Nat) (addr : Nat) : Nat → Nat
  | 0 => 0
  | n + 1 => data addr % 256 + 256 * readBytes data (addr + 1) n

/-- Little-endian store of `w` bytes of `value` starting at `addr`; models
the source's `*(reinterpret_cast<T*>(data_ + address)) = value`. -/
def writeBytes : (Nat → Nat) → Nat → Nat → Nat → (Nat → Nat)
  | data, _, 0, _ => data
  | data, addr, n + 1, value =>
      writeBytes (fun a => if a = addr then value % 256 else data a)
        (addr + 1) n (value / 256)

/-- State of `WdRiscv::Memory` (`src/Memory.hpp:141`) restricted to the parts
the claims are about.  `pma` models `pmaMgr_.getPma` as a total function of
the address (the per-page granularity is internal to `PmaManager`, which is
not under `src/`); `mmrMask` models the write-mask table consulted by
`pmaMgr_.getMemMappedMask`. -/
structure Memory where
  pma : Nat → Pma
  mmrMask : Nat → Nat
  data : Nat → Nat
  reservations : List Reservation
  lastWriteData : List LastWriteData

/-- Modelled from the spec: `PmaManager::getMemMappedMask` is not under
`src/`; per spec section 3 it returns the configured 32-bit word mask, with
all-ones defaults.  The `% 2 ^ 32` models its `uint32_t` return type.
Wrapper `Memory::getMemoryMappedMask` is at `src/Memory.hpp:616`. -/
def Memory.getMemoryMappedMask (m : Memory) (addr : Nat) : Nat :=
  m.mmrMask addr % 2 ^ 32

/-- Mirrors `Memory::doRegisterMasking` (`src/Memory.hpp:621`); the
`% 2 ^ 32` on `value` models the `uint32_t` parameter type. -/
def Memory.doRegisterMasking (m : Memory) (addr value : Nat) : Nat :=
  (value % 2 ^ 32) &&& m.getMemoryMappedMask addr

/-- Mirrors `Memory::readRegister` (`src/Memory.hpp:605`). -/
def Memory.readRegister (m : Memory) (addr : Nat) : Option Nat :=
  if addr % 4 ≠ 0 then none
  else some (readBytes m.data addr 4)

/-- Mirrors `Memory::read<T>` (`src/Memory.hpp:173`, non-`FAST_SLOPPY`
build as in the repository's makefile); `w` stands for `sizeof(T)` and the
misalignment test `address & (sizeof(T) - 1)` is written `address % w`. -/
def Memory.read (m : Memory) (w : Nat) (address : Nat) : Option Nat :=
  if (m.pma address).isRead = false then none
  else if address % w ≠ 0 ∧ m.pma (address + (w - 1)) ≠ m.pma address then none
  else if (m.pma address).isMemMappedReg then
    if w = 4 then m.readRegister address else none
  else some (readBytes m.data address w)

/-- Mirrors `Memory::readByte` (`src/Memory.hpp:206`). -/
def Memory.readByte (m : Memory) (address : Nat) : Option Nat :=
  if (m.pma address).isRead = false then none
  else if (m.pma address).isMemMappedReg then none
  else some (m.data address % 256)

/-- Mirrors `Memory::writeRegister` (`src/Memory.hpp:629`). -/
def Memory.writeRegister (m : Memory) (localHartId addr value : Nat) :
    Bool × Memory :=
  if addr % 4 ≠ 0 then (false, m)
  else
    (true, { m with
      data := writeBytes m.data addr 4 (m.doRegisterMasking addr value),
      lastWriteData := m.lastWriteData.set localHartId
        ({ size := 4, addr := addr, value := m.doRegisterMasking addr value,
           prevValue := readBytes m.data addr 4 }) })

/-- Mirrors `Memory::write<T>` (`src/Memory.hpp:318`, non-`FAST_SLOPPY`);
the `% 2 ^ (8 * w)` on the recorded value models the `T` parameter type. -/
def Memory.write (m : Memory) (localHartId address w value : Nat) :
    Bool × Memory :=
  if (m.pma address).isWrite = false then (false, m)
  else if address % w ≠ 0 ∧ m.pma (address + (w - 1)) ≠ m.pma address then
    (false, m)
  else if (m.pma address).isMemMappedReg then
    if w ≠ 4 then (false, m)
    else m.writeRegister localHartId address value
  else
    (true, { m with
      data := writeBytes m.data address w value,
      lastWriteData := m.lastWriteData.set localHartId
        ({ size := w, addr := address, value := value % 2 ^ (8 * w),
           prevValue := readBytes m.data address w }) })

/-- Mirrors `Memory::poke<T>` (`src/Memory.hpp:466`).  Note that on a
misaligned access it requires the last byte's attribute to be mapped; it
does not compare the two attribute records. -/
def Memory.poke (m : Memory) (address w value : Nat) : Bool × Memory :=
  if (m.pma address).isMapped = false then (false, m)
  else if address % w ≠ 0 ∧ (m.pma (address + (w - 1))).isMapped = false then
    (false, m)
  else if (m.pma address).isMemMappedReg then
    if w ≠ 4 then (false, m)
    else if address % 4 ≠ 0 then (false, m)
    else (true, { m with
      data := writeBytes m.data address 4 (m.doRegisterMasking address value) })
  else (true, { m with data := writeBytes m.data address w value })

/-- Mirrors `Memory::getLastWriteNewValue` (`src/Memory.hpp:517`); `addr0`
and `value0` are the incoming values of the by-reference out-parameters,
returned unchanged when no write is recorded. -/
def Memory.getLastWriteNewValue (m : Memory) (localHartId addr0 value0 : Nat) :
    Nat × Nat × Nat :=
  let lwd := m.lastWriteData.getD localHartId {}
  if lwd.size ≠ 0 then (lwd.size, lwd.addr, lwd.value)
  else (0, addr0, value0)

/-- Mirrors `Memory::getLastWriteOldValue` (`src/Memory.hpp:533`).  The
source body copies `lwd.value_` into the out-parameter — not
`lwd.prevValue_` — so this definition returns `lwd.value` exactly as the
source does, although the source's own comment promises the value before
the last write. -/
def Memory.getLastWriteOldValue (m : Memory) (localHartId addr0 value0 : Nat) :
    Nat × Nat × Nat :=
  let lwd := m.lastWriteData.getD localHartId {}
  if lwd.size ≠ 0 then (lwd.size, lwd.addr, lwd.value)
  else (0, addr0, value0)

/-- Loop body shared by `Memory::invalidateOtherHartLr` and
`Memory::invalidateLrs` (`src/Memory.hpp:699` and `src/Memory.hpp:716`):
clear the reservation when `addr >= res.addr_ && addr - res.addr_ <
res.size_` or `addr < res.addr_ && res.addr_ - addr < storeSize`. -/
def invalidateRes (addr storeSize : Nat) (res : Reservation) : Reservation :=
  if addr ≥ res.addr ∧ addr - res.addr < res.size then { res with valid := false }
  else if addr < res.addr ∧ res.addr - addr < storeSize then
    { res with valid := false }
  else res

/-- Indexed loop of `Memory::invalidateOtherHartLr`: hart `localHartId` is
skipped, every other reservation goes through `invalidateRes`. -/
def invalidateOtherHartLrLoop (localHartId addr storeSize : Nat) :
    Nat → List Reservation → List Reservation
  | _, [] => []
  | i, res :: rest =>
      (if i = localHartId then res else invalidateRes addr storeSize res)
        :: invalidateOtherHartLrLoop localHartId addr storeSize (i + 1) rest

/-- Mirrors `Memory::invalidateOtherHartLr` (`src/Memory.hpp:699`). -/
def Memory.invalidateOtherHartLr (m : Memory) (localHartId addr storeSize : Nat) :
    Memory :=
  { m with reservations :=
      invalidateOtherHartLrLoop localHartId addr storeSize 0 m.reservations }

/-- Mirrors `Memory::invalidateLrs` (`src/Memory.hpp:716`). -/
def Memory.invalidateLrs (m : Memory) (addr storeSize : Nat) : Memory :=
  { m with reservations := m.reservations.map (invalidateRes addr storeSize) }

/-- Mirrors `Memory::invalidateLr` (`src/Memory.hpp:729`). -/
def Memory.invalidateLr (m : Memory) (localHartId : Nat) : Memory :=
  { m with
    reservations := m.reservations.set localHartId
      ({ m.reservations.getD localHartId {} with valid := false } : Reservation) }

/-- Mirrors `Memory::makeLr` (`src/Memory.hpp:733`). -/
def Memory.makeLr (m : Memory) (localHartId addr size : Nat) : Memory :=
  { m with
    reservations := m.reservations.set localHartId
      ({ addr := addr, size := size, valid := true } : Reservation) }

/-- Mirrors `Memory::hasLr` (`src/Memory.hpp:743`). -/
def Memory.hasLr (m : Memory) (localHartId addr : Nat) : Bool :=
  let res := m.reservations.getD localHartId {}
  res.valid && res.addr == addr

/-- Modelled from the spec: the executor (`Hart`, not under `src/`) couples
every successful `Memory::write` with
`invalidateOtherHartLr(hart, addr, sizeof(T))` — spec section 4.3 step 6:
on any successful write, invalidate reservations on other harts that
intersect the written range. -/
def Memory.storeOp (m : Memory) (localHartId address w value : Nat) :
    Bool × Memory :=
  let r := m.write localHartId address w value
  if r.1 then (true, r.2.invalidateOtherHartLr localHartId address w) else r

/-- Modelled from the spec: the executor (`Hart`, not under `src/`) couples
every successful `Memory::poke` with `invalidateLrs(addr, sizeof(T))` —
spec section 4.3: poke invalidates all overlapping reservations on all
harts, including the poking hart. -/
def Memory.pokeOp (m : Memory) (address w value : Nat) : Bool × Memory :=
  let r := m.poke address w value
  if r.1 then (true, r.2.invalidateLrs address w) else r

/-- Enumerators of `enum class InstId` (`src/InstId.hpp:20`), in source
order.  A C++ unscoped-value enumeration assigns consecutive values starting
at 0, so the numeric value of each identity is its index in this list. -/
def instIdEnumerators : List String :=
  ["illegal",
   "lui", "auipc", "jal", "jalr", "beq", "bne", "blt", "bge", "bltu", "bgeu",
   "lb", "lh", "lw", "lbu", "lhu", "sb", "sh", "sw", "addi", "slti", "sltiu",
   "xori", "ori", "andi", "slli", "srli", "srai", "add", "sub", "sll", "slt",
   "sltu", "xor_", "srl", "sra", "or_", "and_", "fence", "fencei", "ecall",
   "ebreak",
   "csrrw", "csrrs", "csrrc", "csrrwi", "csrrsi", "csrrci",
   "lwu", "ld", "sd", "addiw", "slliw", "srliw", "sraiw", "addw", "subw",
   "sllw", "srlw", "sraw",
   "mul", "mulh", "mulhsu", "mulhu", "div", "divu", "rem", "remu",
   "mulw", "divw", "divuw", "remw", "remuw",
   "lr_w", "sc_w", "amoswap_w", "amoadd_w", "amoxor_w", "amoand_w", "amoor_w",
   "amomin_w", "amomax_w", "amominu_w", "amomaxu_w",
   "lr_d", "sc_d", "amoswap_d", "amoadd_d", "amoxor_d", "amoand_d", "amoor_d",
   "amomin_d", "amomax_d", "amominu_d", "amomaxu_d",
   "flw", "fsw", "fmadd_s", "fmsub_s", "fnmsub_s", "fnmadd_s", "fadd_s",
   "fsub_s", "fmul_s", "fdiv_s", "fsqrt_s", "fsgnj_s", "fsgnjn_s", "fsgnjx_s",
   "fmin_s", "fmax_s", "fcvt_w_s", "fcvt_wu_s", "fmv_x_w", "feq_s", "flt_s",
   "fle_s", "fclass_s", "fcvt_s_w", "fcvt_s_wu", "fmv_w_x",
   "fcvt_l_s", "fcvt_lu_s", "fcvt_s_l", "fcvt_s_lu",
   "fld", "fsd", "fmadd_d", "fmsub_d", "fnmsub_d", "fnmadd_d", "fadd_d",
   "fsub_d", "fmul_d", "fdiv_d", "fsqrt_d", "fsgnj_d", "fsgnjn_d", "fsgnjx_d",
   "fmin_d", "fmax_d", "fcvt_s_d", "fcvt_d_s", "feq_d", "flt_d", "fle_d",
   "fclass_d", "fcvt_w_d", "fcvt_wu_d", "fcvt_d_w", "fcvt_d_wu",
   "fcvt_l_d", "fcvt_lu_d", "fmv_x_d", "fcvt_d_l", "fcvt_d_lu", "fmv_d_x",
   "mret", "uret", "sret", "wfi",
   "sfence_vma",
   "c_addi4spn", "c_fld", "c_lq", "c_lw", "c_flw", "c_ld", "c_fsd", "c_sq",
   "c_sw", "c_fsw", "c_sd", "c_addi", "c_jal", "c_li", "c_addi16sp", "c_lui",
   "c_srli", "c_srli64", "c_srai", "c_srai64", "c_andi", "c_sub", "c_xor",
   "c_or", "c_and", "c_subw", "c_addw", "c_j", "c_beqz", "c_bnez", "c_slli",
   "c_slli64", "c_fldsp", "c_lwsp", "c_flwsp", "c_ldsp", "c_jr", "c_mv",
   "c_ebreak", "c_jalr", "c_add", "c_fsdsp", "c_swsp", "c_fswsp", "c_addiw",
   "c_sdsp",
   "clz", "ctz", "pcnt", "andn", "orn", "xnor", "slo", "sro", "sloi", "sroi",
   "min", "max", "minu", "maxu", "rol", "ror", "rori", "rev8", "rev", "pack",
   "addwu", "subwu", "addiwu", "sext_b", "sext_h", "addu_w", "subu_w",
   "slliu_w", "packh", "packu", "packw", "packuw", "grev", "grevi", "gorc",
   "gorci", "shfl", "shfli", "unshfl", "unshfli",
   "sbset", "sbclr", "sbinv", "sbext", "sbseti", "sbclri", "sbinvi", "sbexti",
   "bdep", "bext",
   "bfp",
   "clmul", "clmulh", "clmulr",
   "sh1add", "sh2add", "sh3add", "sh1addu_w", "sh2addu_w", "sh3addu_w",
   "crc32_b", "crc32_h", "crc32_w", "crc32_d", "crc32c_b", "crc32c_h",
   "crc32c_w", "crc32c_d",
   "bmator", "bmatxor", "bmatflip",
   "cmov", "cmix", "fsl", "fsr", "fsri",
   "vadd_vv", "vadd_vx", "vadd_vi",
   "vsub_vv", "vsub_vx",
   "vrsub_vx", "vrsub_vi",
   "vminu_vv", "vminu_vx", "vmin_vv", "vmin_vx",
   "vmaxu_vv", "vmaxu_vx", "vmax_vv", "vmax_vx",
   "vand_vv", "vand_vx", "vand_vi",
   "vor_vv", "vor_vx", "vor_vi",
   "vxor_vv", "vxor_vx", "vxor_vi",
   "vrgather_vv", "vrgather_vx", "vrgather_vi"]

/-- Numeric value of the enumerator with the given name: its position in
the enumeration. -/
def instIdValue (name : String) : Nat := instIdEnumerators.indexOf name

/-- Mirrors the sentinel `maxId = vrgather_vi` (`src/InstId.hpp:389`). -/
def instIdMaxId : Nat := instIdValue "vrgather_vi"

/-- Nonempty intersection of the half-open ranges `[a1, a1+n1)` and
`[a2, a2+n2)`. -/
def rangesOverlap (a1 n1 a2 n2 : Nat) : Prop :=
  a1 < a2 + n2 ∧ a2 < a1 + n1 ∧ 0 < n1 ∧ 0 < n2

instance (a1 n1 a2 n2 : Nat) : Decidable (rangesOverlap a1 n1 a2 n2) :=
  inferInstanceAs (Decidable (_ ∧ _ ∧ _ ∧ _))

/-- Attribute record of an ordinary read-write page. -/
def pmaRW : Pma := { read := true, write := true }

/-- Attribute record of a read-only page. -/
def pmaR : Pma := { read := true }

/-- Attribute record of a read-write memory-mapped-register page. -/
def pmaMMR : Pma := { read := true, write := true, reg := true }

/-- Concrete memory whose every page is plain read-write, with two harts
holding valid word reservations at address 0, used to evaluate the
theorems on concrete inputs. -/
def memRW : Memory :=
  { pma := fun _ => pmaRW, mmrMask := fun _ => 0, data := fun _ => 0,
    reservations := [{ addr := 0, size := 4, valid := true },
                     { addr := 0, size := 4, valid := true }],
    lastWriteData := [{}, {}] }

/-- Concrete memory whose every page is a memory-mapped-register page with
write mask `0xFFFF`. -/
def memMMR : Memory :=
  { pma := fun _ => pmaMMR, mmrMask := fun _ => 0xFFFF, data := fun _ => 0,
    reservations := [], lastWriteData := [{}] }

/-- Concrete memory with no page mapped. -/
def memNone : Memory :=
  { pma := fun _ => ({} : Pma), mmrMask := fun _ => 0, data := fun _ => 0,
    reservations := [], lastWriteData := [{}] }

/-- Concrete memory where address 2 is read-only and every other address is
read-write: a misaligned two-byte access at address 1 spans two different
attribute records, both mapped. -/
def memC4 : Memory :=
  { pma := fun a => if a = 2 then pmaR else pmaRW,
    mmrMask := fun _ => 0, data := fun _ => 0,
    reservations := [], lastWriteData := [{}] }

/-- Concrete memory whose bytes all hold 5, every page read-write. -/
def memC2 : Memory :=
  { pma := fun _ => pmaRW, mmrMask := fun _ => 0, data := fun _ => 5,
    reservations := [], lastWriteData := [{}] }

/-- Concrete memory with two harts whose reservations sit at address 0 with
size 0 (as after `makeLr(h, 0, 0)`), every page read-write. -/
def memRes00 : Memory :=
  { pma := fun _ => pmaRW, mmrMask := fun _ => 0, data := fun _ => 0,
    reservations := [{ addr := 0, size := 0, valid := true },
                     { addr := 0, size := 0, valid := true }],
    lastWriteData := [{}, {}] }

/-! Helper lemmas about the byte-level store. -/

theorem writeBytes_eq_of_lt (w : Nat) :
    ∀ (data : Nat → Nat) (addr v a : Nat), a < addr →
      writeBytes data addr w v a = data a := by
  induction w with
  | zero => intro data addr v a _; rfl
  | succ n ih =>
      intro data addr v a ha
      rw [writeBytes, ih _ _ _ _ (by omega)]
      simp only [if_neg (by omega : ¬ a = addr)]

theorem readBytes_writeBytes (w : Nat) :
    ∀ (data : Nat → Nat) (addr v : Nat),
      readBytes (writeBytes data addr w v) addr w = v % 2 ^ (8 * w) := by
  induction w with
  | zero => intro data addr v; simp [readBytes, writeBytes, Nat.mod_one]
  | succ n ih =>
      intro data addr v
      rw [writeBytes, readBytes,
        writeBytes_eq_of_lt n _ (addr + 1) _ addr (Nat.lt_succ_self addr)]
      simp only [eq_self_iff_true, if_true, Nat.mod_mod, ih]
      have hpow : (2 : Nat) ^ (8 * (n + 1)) = 256 * 2 ^ (8 * n) := by
        have h8 : 8 * (n + 1) = 8 + 8 * n := by ring
        rw [h8, pow_add]; norm_num
      rw [hpow, Nat.mod_mul]

theorem write_snd_pma (m : Memory) (h a w v : Nat) :
    (m.write h a w v).2.pma = m.pma := by
  unfold Memory.write Memory.writeRegister
  repeat' split
  all_goals rfl

theorem write_snd_mmrMask (m : Memory) (h a w v : Nat) :
    (m.write h a w v).2.mmrMask = m.mmrMask := by
  unfold Memory.write Memory.writeRegister
  repeat' split
  all_goals rfl

theorem write_snd_reservations (m : Memory) (h a w v : Nat) :
    (m.write h a w v).2.reservations = m.reservations := by
  unfold Memory.write Memory.writeRegister
  repeat' split
  all_goals rfl

theorem poke_snd_reservations (m : Memory) (a w v : Nat) :
    (m.poke a w v).2.reservations = m.reservations := by
  unfold Memory.poke
  repeat' split
  all_goals rfl

/-- C8: if `write` (or `poke`) returns false, the whole memory state —
backing store, last-write slots, reservations, attributes — is exactly the
state before the call: failed writes do not partially commit. -/
theorem failed_write_poke_no_side_effects (m : Memory) (h a w v : Nat) :
    ((m.write h a w v).1 = false → (m.write h a w v).2 = m) ∧
    ((m.poke a w v).1 = false → (m.poke a w v).2 = m) := by
  constructor
  · intro hf
    unfold Memory.write Memory.writeRegister at *
    repeat' split at hf
    all_goals first | rfl | simp_all
  · intro hf
    unfold Memory.poke at *
    repeat' split at hf
    all_goals first | rfl | simp_all

/-- Witness for C8 at a concrete input: the write at an unmapped page fails
and the state is returned unchanged. -/
theorem failed_write_poke_no_side_effects_witness :
    (memNone.write 0 0 1 5).1 = false ∧ (memNone.write 0 0 1 5).2 = memNone :=
  ⟨by decide, (failed_write_poke_no_side_effects memNone 0 0 1 5).1 (by decide)⟩

set_option maxRecDepth 100000

/-- C9: in the instruction identity enumeration, `illegal` is the first
enumerator (numeric value 0, the minimum), the sentinel `maxId` equals the
last enumerator `vrgather_vi` (so its value is `length - 1`), and every
identity value `i` satisfies `illegal ≤ i ≤ maxId`. -/
theorem instId_illegal_first_maxId_last :
    instIdEnumerators.headD "" = "illegal" ∧
    instIdValue "illegal" = 0 ∧
    instIdEnumerators.getLastD "" = "vrgather_vi" ∧
    instIdMaxId = instIdEnumerators.length - 1 ∧
    ∀ i : Fin instIdEnumerators.length,
      instIdValue "illegal" ≤ i.val ∧ i.val ≤ instIdMaxId := by
  refine ⟨by decide, by decide, by decide, by decide, fun i => ⟨?_, ?_⟩⟩
  · have h0 : instIdValue "illegal" = 0 := by decide
    omega
  · have hm : instIdMaxId = instIdEnumerators.length - 1 := by decide
    have hl := i.isLt
    omega

theorem invalidateOtherHartLrLoop_getD (localHartId addr storeSize : Nat) :
    ∀ (rs : List Reservation) (i j : Nat),
      (invalidateOtherHartLrLoop localHartId addr storeSize i rs).getD j {} =
        if j < rs.length then
          (if i + j = localHartId then rs.getD j {}
           else invalidateRes addr storeSize (rs.getD j {}))
        else {} := by
  intro rs
  induction rs with
  | nil => intro i j; simp [invalidateOtherHartLrLoop]
  | cons res rest ih =>
      intro i j
      cases j with
      | zero =>
          simp only [invalidateOtherHartLrLoop, List.getD_cons_zero,
            List.length_cons, Nat.zero_lt_succ, if_true, Nat.add_zero]
      | succ jj =>
          simp only [invalidateOtherHartLrLoop, List.getD_cons_succ,
            List.length_cons, ih (i + 1) jj, Nat.add_lt_add_iff_right]
          have hidx : i + 1 + jj = i + (jj + 1) := by omega
          rw [hidx]

theorem map_invalidateRes_getD (addr storeSize : Nat) :
    ∀ (rs : List Reservation) (j : Nat),
      (rs.map (invalidateRes addr storeSize)).getD j {} =
        if j < rs.length then invalidateRes addr storeSize (rs.getD j {})
        else {} := by
  intro rs
  induction rs with
  | nil => intro j; simp
  | cons res rest ih =>
      intro j
      cases j with
      | zero => simp
      | succ jj =>
          simp only [List.map_cons, List.getD_cons_succ, List.length_cons,
            ih jj, Nat.add_lt_add_iff_right]

theorem invalidateRes_valid_of_overlap (addr storeSize : Nat)
    (res : Reservation)
    (hov : rangesOverlap res.addr res.size addr storeSize) :
    (invalidateRes addr storeSize res).valid = false := by
  obtain ⟨h1, h2, _, _⟩ := hov
  unfold invalidateRes
  by_cases hge : addr ≥ res.addr
  · rw [if_pos ⟨hge, by omega⟩]
  · rw [if_neg (by omega), if_pos (by omega)]

/-- C1: a successful store of width `w` at `a` by hart `h` invalidates the
reservation of every other hart `hp` whose reservation range overlaps
`[a, a + w)`, and leaves hart `h`'s own reservation record unchanged. -/
theorem storeOp_invalidates_other_harts (m : Memory) (h hp a w v : Nat)
    (hne : hp ≠ h) (hlt : hp < m.reservations.length)
    (hw : w = 1 ∨ w = 2 ∨ w = 4 ∨ w = 8)
    (hok : (m.storeOp h a w v).1 = true)
    (hov : rangesOverlap (m.reservations.getD hp {}).addr
      (m.reservations.getD hp {}).size a w) :
    ((m.storeOp h a w v).2.reservations.getD hp {}).valid = false ∧
    (m.storeOp h a w v).2.reservations.getD h {} = m.reservations.getD h {} := by
  by_cases hwr : (m.write h a w v).1 = true
  · simp only [Memory.storeOp, hwr, if_true]
    have hres :
        ((m.write h a w v).2.invalidateOtherHartLr h a w).reservations =
          invalidateOtherHartLrLoop h a w 0 m.reservations := by
      simp only [Memory.invalidateOtherHartLr, write_snd_reservations]
    rw [hres]
    constructor
    · rw [invalidateOtherHartLrLoop_getD, if_pos hlt,
        if_neg (by omega : ¬ 0 + hp = h)]
      exact invalidateRes_valid_of_overlap a w _ hov
    · rw [invalidateOtherHartLrLoop_getD]
      by_cases hh : h < m.reservations.length
      · rw [if_pos hh, if_pos (by omega : 0 + h = h)]
      · rw [if_neg hh, List.getD_eq_default _ _ (by omega)]
  · simp only [Memory.storeOp, hwr, if_false] at hok
    exact absurd hok hwr

/-- Witness for C1 at a concrete input: hart 0 stores a word at address 0;
hart 1's word reservation at 0 is invalidated while hart 0's own
reservation record is untouched. -/
theorem storeOp_invalidates_other_harts_witness :
    (memRW.storeOp 0 0 4 1).1 = true ∧
    ((memRW.storeOp 0 0 4 1).2.reservations.getD 1 {}).valid = false ∧
    (memRW.storeOp 0 0 4 1).2.reservations.getD 0 {} =
      memRW.reservations.getD 0 {} :=
  ⟨by decide,
   (storeOp_invalidates_other_harts memRW 0 1 0 4 1 (by decide) (by decide)
     (by decide) (by decide) (by decide)).1,
   (storeOp_invalidates_other_harts memRW 0 1 0 4 1 (by decide) (by decide)
     (by decide) (by decide) (by decide)).2⟩

/-- C3: a successful poke of width `w` at `a` invalidates the reservation
of every hart — the poking hart included — whose reservation range
overlaps `[a, a + w)`. -/
theorem pokeOp_invalidates_all_harts (m : Memory) (hp a w v : Nat)
    (hlt : hp < m.reservations.length)
    (hw : w = 1 ∨ w = 2 ∨ w = 4 ∨ w = 8)
    (hok : (m.pokeOp a w v).1 = true)
    (hov : rangesOverlap (m.reservations.getD hp {}).addr
      (m.reservations.getD hp {}).size a w) :
    ((m.pokeOp a w v).2.reservations.getD hp {}).valid = false := by
  by_cases hpk : (m.poke a w v).1 = true
  · simp only [Memory.pokeOp, hpk, if_true]
    have hres : ((m.poke a w v).2.invalidateLrs a w).reservations =
        m.reservations.map (invalidateRes a w) := by
      simp only [Memory.invalidateLrs, poke_snd_reservations]
    rw [hres, map_invalidateRes_getD, if_pos hlt]
    exact invalidateRes_valid_of_overlap a w _ hov
  · simp only [Memory.pokeOp, hpk, if_false] at hok
    exact absurd hok hpk

/-- Witness for C3 at a concrete input: a word poke at address 0
invalidates hart 0's own word reservation at 0. -/
theorem pokeOp_invalidates_all_harts_witness :
    (memRW.pokeOp 0 4 1).1 = true ∧
    ((memRW.pokeOp 0 4 1).2.reservations.getD 0 {}).valid = false :=
  ⟨by decide,
   pokeOp_invalidates_all_harts memRW 0 0 4 1 (by decide) (by decide)
     (by decide) (by decide)⟩

theorem getD_set_self {α : Type} (l : List α) (i : Nat) (x d : α)
    (h : i < l.length) : (l.set i x).getD i d = x := by
  simp [List.getD, List.getElem?_set_eq_of_lt x h]

theorem getD_set_other {α : Type} (l : List α) (i j : Nat) (x d : α)
    (h : i ≠ j) : (l.set i x).getD j d = l.getD j d := by
  simp [List.getD, List.getElem?_set_ne h]

theorem invalidateRes_eq_ite (addr storeSize : Nat) (res : Reservation) :
    invalidateRes addr storeSize res =
      if (res.addr ≤ addr ∧ addr < res.addr + res.size) ∨
          (addr < res.addr ∧ res.addr < addr + storeSize)
      then { res with valid := false } else res := by
  unfold invalidateRes
  split_ifs
  all_goals first | rfl | (exfalso; omega)

/-- C7 counterexample: with store address 0 and store size 1, hart 1's
reservation has `res.addr = 0 = addr` and `res.size = 0`, so `res.addr`
lies in `[addr, addr + 1)` and the claim says the reservation is cleared —
but `invalidateOtherHartLr` leaves it valid, because its second test
requires `addr < res.addr_` strictly. -/
theorem invalidateOtherHartLr_zero_size_not_cleared :
    (memRes00.reservations.getD 1 {}).addr = 0 ∧
    (memRes00.reservations.getD 1 {}).size = 0 ∧
    (memRes00.reservations.getD 1 {}).valid = true ∧
    (0 : Nat) ≤ 0 ∧ (0 : Nat) < 0 + 1 ∧
    ((memRes00.invalidateOtherHartLr 0 0 1).reservations.getD 1 {}).valid
      = true := by decide

/-- C7 amended: `invalidateOtherHartLr(h, addr, s)` clears the reservation
of a hart `hp ≠ h` exactly when `addr ∈ [res.addr, res.addr + res.size)`
or (`addr < res.addr` and `res.addr ∈ (addr, addr + s)`); the membership
test on `res.addr` is strict at the left end, so a reservation with
`res.addr = addr` and `res.size = 0` is not cleared. -/
theorem invalidateOtherHartLr_clear_iff (m : Memory) (h hp a s : Nat)
    (hne : hp ≠ h) (hlt : hp < m.reservations.length) :
    (m.invalidateOtherHartLr h a s).reservations.getD hp {} =
      if ((m.reservations.getD hp {}).addr ≤ a ∧
            a < (m.reservations.getD hp {}).addr +
              (m.reservations.getD hp {}).size) ∨
          (a < (m.reservations.getD hp {}).addr ∧
            (m.reservations.getD hp {}).addr < a + s)
      then { m.reservations.getD hp {} with valid := false }
      else m.reservations.getD hp {} := by
  show (invalidateOtherHartLrLoop h a s 0 m.reservations).getD hp {} = _
  rw [invalidateOtherHartLrLoop_getD, if_pos hlt,
    if_neg (by omega : ¬ 0 + hp = h), invalidateRes_eq_ite]

/-- Witness for the amended C7 at a concrete input: with both tests false
(`res.addr = addr`, `res.size = 0`), hart 1's reservation is returned
unchanged. -/
theorem invalidateOtherHartLr_clear_iff_witness :
    (memRes00.invalidateOtherHartLr 0 0 1).reservations.getD 1 {} =
      if ((memRes00.reservations.getD 1 {}).addr ≤ 0 ∧
            0 < (memRes00.reservations.getD 1 {}).addr +
              (memRes00.reservations.getD 1 {}).size) ∨
          (0 < (memRes00.reservations.getD 1 {}).addr ∧
            (memRes00.reservations.getD 1 {}).addr < 0 + 1)
      then { memRes00.reservations.getD 1 {} with valid := false }
      else memRes00.reservations.getD 1 {} :=
  invalidateOtherHartLr_clear_iff memRes00 0 1 0 1 (by decide) (by decide)

theorem invalidateRes_addr (a s : Nat) (res : Reservation) :
    (invalidateRes a s res).addr = res.addr := by
  unfold invalidateRes; split_ifs <;> rfl

theorem invalidateRes_size (a s : Nat) (res : Reservation) :
    (invalidateRes a s res).size = res.size := by
  unfold invalidateRes; split_ifs <;> rfl

theorem invalidateRes_valid_mono (a s : Nat) (res : Reservation) :
    (invalidateRes a s res).valid = true → res.valid = true := by
  unfold invalidateRes; split_ifs <;> simp_all

theorem invalidateLr_getD (m : Memory) (h i : Nat) :
    (m.invalidateLr h).reservations.getD i {} = m.reservations.getD i {} ∨
    (m.invalidateLr h).reservations.getD i {} =
      { m.reservations.getD i {} with valid := false } := by
  by_cases hih : i = h
  · subst hih
    by_cases hlen : i < m.reservations.length
    · right
      show (m.reservations.set i _).getD i {} = _
      rw [getD_set_self _ _ _ _ hlen]
    · left
      show (m.reservations.set i _).getD i {} = _
      have h1 : (m.reservations.set i
          ({ m.reservations.getD i {} with valid := false} : Reservation)).length
            ≤ i := by
        rw [List.length_set]; omega
      rw [List.getD_eq_default _ _ h1, List.getD_eq_default _ _ (by omega)]
  · left
    show (m.reservations.set h _).getD i {} = _
    exact getD_set_other _ _ _ _ _ (fun he => hih he.symm)

/-- C10: the three invalidation operations only ever clear the `valid`
flag — for every hart slot they preserve the recorded address and size and
never turn an invalid reservation valid — while `makeLr` is the operation
that installs a valid reservation. -/
theorem invalidation_ops_only_clear_valid (m : Memory) (h a s i : Nat) :
    (((m.invalidateLr h).reservations.getD i {}).addr =
        (m.reservations.getD i {}).addr ∧
      ((m.invalidateLr h).reservations.getD i {}).size =
        (m.reservations.getD i {}).size ∧
      (((m.invalidateLr h).reservations.getD i {}).valid = true →
        (m.reservations.getD i {}).valid = true)) ∧
    (((m.invalidateOtherHartLr h a s).reservations.getD i {}).addr =
        (m.reservations.getD i {}).addr ∧
      ((m.invalidateOtherHartLr h a s).reservations.getD i {}).size =
        (m.reservations.getD i {}).size ∧
      (((m.invalidateOtherHartLr h a s).reservations.getD i {}).valid = true →
        (m.reservations.getD i {}).valid = true)) ∧
    (((m.invalidateLrs a s).reservations.getD i {}).addr =
        (m.reservations.getD i {}).addr ∧
      ((m.invalidateLrs a s).reservations.getD i {}).size =
        (m.reservations.getD i {}).size ∧
      (((m.invalidateLrs a s).reservations.getD i {}).valid = true →
        (m.reservations.getD i {}).valid = true)) ∧
    (h < m.reservations.length →
      (m.makeLr h a s).reservations.getD h {} =
        ({ addr := a, size := s, valid := true } : Reservation)) := by
  refine ⟨?_, ?_, ?_, ?_⟩
  · rcases invalidateLr_getD m h i with heq | heq <;> rw [heq]
    · exact ⟨rfl, rfl, fun hv => hv⟩
    · exact ⟨rfl, rfl, by simp⟩
  · rw [show (m.invalidateOtherHartLr h a s).reservations =
        invalidateOtherHartLrLoop h a s 0 m.reservations from rfl,
      invalidateOtherHartLrLoop_getD]
    split_ifs with h1 h2
    · exact ⟨rfl, rfl, fun hv => hv⟩
    · exact ⟨invalidateRes_addr _ _ _, invalidateRes_size _ _ _,
        invalidateRes_valid_mono _ _ _⟩
    · rw [List.getD_eq_default _ _ (by omega)]
      exact ⟨rfl, rfl, by simp⟩
  · rw [show (m.invalidateLrs a s).reservations =
        m.reservations.map (invalidateRes a s) from rfl,
      map_invalidateRes_getD]
    split_ifs with h1
    · exact ⟨invalidateRes_addr _ _ _, invalidateRes_size _ _ _,
        invalidateRes_valid_mono _ _ _⟩
    · rw [List.getD_eq_default _ _ (by omega)]
      exact ⟨rfl, rfl, by simp⟩
  · intro hlen
    show (m.reservations.set h _).getD h {} = _
    exact getD_set_self _ _ _ _ hlen

/-- Witness for C10 at a concrete input: applying the theorem to `memRW`
shows `makeLr` installs the reservation `{0, 4, valid}` for hart 0. -/
theorem invalidation_ops_only_clear_valid_witness :
    0 < memRW.reservations.length ∧
    (memRW.makeLr 0 0 4).reservations.getD 0 {} =
      ({ addr := 0, size := 4, valid := true } : Reservation) :=
  ⟨by decide,
   (invalidation_ops_only_clear_valid memRW 0 0 4 1).2.2.2 (by decide)⟩

/-- C2, evaluated at the failing input: the bytes all hold 5, hart 0
writes the byte 7 at address 0 successfully, and the new-value accessor
reports `(1, 0, 7)` as the claim says — but the old-value accessor also
reports `(1, 0, 7)`: it returns the stored `value` field, not the
`prevValue` field, although the slot did record `prevValue = 5` (the value
`read` returned before the write). -/
theorem getLastWriteOldValue_returns_new_value :
    memC2.read 1 0 = some 5 ∧
    (memC2.write 0 0 1 7).1 = true ∧
    (memC2.write 0 0 1 7).2.getLastWriteNewValue 0 0 0 = (1, 0, 7) ∧
    (memC2.write 0 0 1 7).2.getLastWriteOldValue 0 0 0 = (1, 0, 7) ∧
    ((memC2.write 0 0 1 7).2.lastWriteData.getD 0 {}).prevValue = 5 := by
  decide

/-- C4 counterexample: at address 1 (misaligned for width 2) the first
byte's PMA is read-write and the last byte's PMA is read-only — two
different, both mapped, attribute records.  `read` and `write` reject the
straddling access, but `poke` accepts it: poke does not apply the same
straddle rule. -/
theorem poke_ignores_attribute_mismatch :
    (1 : Nat) % 2 ≠ 0 ∧
    memC4.pma 1 ≠ memC4.pma 2 ∧
    memC4.read 2 1 = none ∧
    (memC4.write 0 1 2 171).1 = false ∧
    (memC4.poke 1 2 171).1 = true := by decide

/-- C4 amended: for a misaligned non-MMR access whose first byte passes
the gating attribute check, `read` and `write` succeed iff the PMAs of the
first and last byte are equal as bitwise records, while `poke` succeeds
iff the last byte's PMA is mapped (it performs no equality comparison). -/
theorem straddle_rules (m : Memory) (a w : Nat)
    (hmis : a % w ≠ 0) (hreg : (m.pma a).reg = false) :
    ((m.pma a).read = true →
      ((m.read w a).isSome = true ↔ m.pma (a + (w - 1)) = m.pma a)) ∧
    ((m.pma a).write = true → ∀ h v,
      ((m.write h a w v).1 = true ↔ m.pma (a + (w - 1)) = m.pma a)) ∧
    ((m.pma a).isMapped = true → ∀ v,
      ((m.poke a w v).1 = true ↔ (m.pma (a + (w - 1))).isMapped = true)) := by
  refine ⟨?_, ?_, ?_⟩
  · intro hr
    unfold Memory.read
    rw [if_neg (by simp [Pma.isRead, hr])]
    by_cases hp : m.pma (a + (w - 1)) = m.pma a
    · rw [if_neg (by simp [hp]), if_neg (by simp [Pma.isMemMappedReg, hreg])]
      simp [hp]
    · rw [if_pos ⟨hmis, hp⟩]
      simp [hp]
  · intro hw h v
    unfold Memory.write
    rw [if_neg (by simp [Pma.isWrite, hw])]
    by_cases hp : m.pma (a + (w - 1)) = m.pma a
    · rw [if_neg (by simp [hp]), if_neg (by simp [Pma.isMemMappedReg, hreg])]
      simp [hp]
    · rw [if_pos ⟨hmis, hp⟩]
      simp [hp]
  · intro hm v
    unfold Memory.poke
    rw [if_neg (by simp [hm])]
    by_cases hp : (m.pma (a + (w - 1))).isMapped = true
    · rw [if_neg (by simp [hp]), if_neg (by simp [Pma.isMemMappedReg, hreg])]
      simp [hp]
    · rw [Bool.not_eq_true] at hp
      rw [if_pos ⟨hmis, hp⟩]
      simp [hp]

/-- Witness for the amended C4 at a concrete input: the misaligned poke at
address 1 of `memC4` succeeds because the last byte is mapped. -/
theorem straddle_rules_witness :
    (1 : Nat) % 2 ≠ 0 ∧ (memC4.pma 1).reg = false ∧
    ((memC4.poke 1 2 171).1 = true ↔
      (memC4.pma (1 + (2 - 1))).isMapped = true) :=
  ⟨by decide, by decide,
   (straddle_rules memC4 1 2 (by decide) (by decide)).2.2 (by decide) 171⟩

theorem write_plain_eq (m : Memory) (h a w v : Nat)
    (hW : (m.pma a).write = true)
    (hStrad : a % w = 0 ∨ m.pma (a + (w - 1)) = m.pma a)
    (hReg : (m.pma a).reg = false) :
    m.write h a w v =
      (true, { m with
        data := writeBytes m.data a w v,
        lastWriteData := m.lastWriteData.set h
          ({ size := w, addr := a, value := v % 2 ^ (8 * w),
             prevValue := readBytes m.data a w }) }) := by
  unfold Memory.write
  rw [if_neg (by simp [Pma.isWrite, hW]),
    if_neg (by rcases hStrad with h' | h' <;> simp [h']),
    if_neg (by simp [Pma.isMemMappedReg, hReg])]

theorem write_mmr_eq (m : Memory) (h a v : Nat)
    (hW : (m.pma a).write = true)
    (hReg : (m.pma a).reg = true)
    (hAl : a % 4 = 0) :
    m.write h a 4 v =
      (true, { m with
        data := writeBytes m.data a 4 (m.doRegisterMasking a v),
        lastWriteData := m.lastWriteData.set h
          ({ size := 4, addr := a, value := m.doRegisterMasking a v,
             prevValue := readBytes m.data a 4 }) }) := by
  unfold Memory.write Memory.writeRegister
  rw [if_neg (by simp [Pma.isWrite, hW]),
    if_neg (by simp [hAl]),
    if_pos (by simp [Pma.isMemMappedReg, hReg]),
    if_neg (by simp),
    if_neg (by simp [hAl])]

theorem read_plain_eq (m : Memory) (a w : Nat)
    (hR : (m.pma a).read = true)
    (hStrad : a % w = 0 ∨ m.pma (a + (w - 1)) = m.pma a)
    (hReg : (m.pma a).reg = false) :
    m.read w a = some (readBytes m.data a w) := by
  unfold Memory.read
  rw [if_neg (by simp [Pma.isRead, hR]),
    if_neg (by rcases hStrad with h' | h' <;> simp [h']),
    if_neg (by simp [Pma.isMemMappedReg, hReg])]

theorem read_mmr_eq (m : Memory) (a : Nat)
    (hR : (m.pma a).read = true)
    (hReg : (m.pma a).reg = true)
    (hAl : a % 4 = 0) :
    m.read 4 a = some (readBytes m.data a 4) := by
  unfold Memory.read Memory.readRegister
  rw [if_neg (by simp [Pma.isRead, hR]),
    if_neg (by simp [hAl]),
    if_pos (by simp [Pma.isMemMappedReg, hReg]),
    if_pos rfl,
    if_neg (by simp [hAl])]

/-- C5: on a readable-and-writable page, for an aligned or non-straddling
access (word-sized and word-aligned when the page is a memory-mapped
register page), `write(a, v)` succeeds and a following `read(a)` of the
same width returns `v &&& mask(a)`, where `mask(a)` is the configured MMR
write mask of the word containing `a` and all-ones (of the access width)
for non-MMR addresses. -/
theorem write_then_read_masked (m : Memory) (h a w v : Nat)
    (hw : w = 1 ∨ w = 2 ∨ w = 4 ∨ w = 8)
    (hR : (m.pma a).read = true) (hW : (m.pma a).write = true)
    (hStrad : a % w = 0 ∨ m.pma (a + (w - 1)) = m.pma a)
    (hMMR : (m.pma a).reg = true → w = 4 ∧ a % 4 = 0)
    (hv : v < 2 ^ (8 * w)) :
    (m.write h a w v).1 = true ∧
    (m.write h a w v).2.read w a =
      some (v &&& (if (m.pma a).reg = true then m.getMemoryMappedMask a
                   else 2 ^ (8 * w) - 1)) := by
  by_cases hreg : (m.pma a).reg = true
  · obtain ⟨hw4, hAl⟩ := hMMR hreg
    subst hw4
    refine ⟨by rw [write_mmr_eq m h a v hW hreg hAl], ?_⟩
    rw [read_mmr_eq ((m.write h a 4 v).2) a
        (by rw [write_snd_pma]; exact hR)
        (by rw [write_snd_pma]; exact hreg) hAl,
      show (m.write h a 4 v).2.data =
          writeBytes m.data a 4 (m.doRegisterMasking a v) from
        by rw [write_mmr_eq m h a v hW hreg hAl],
      readBytes_writeBytes]
    have hmask : m.getMemoryMappedMask a < 2 ^ 32 :=
      Nat.mod_lt _ (by norm_num)
    have hlt : m.doRegisterMasking a v < 2 ^ 32 :=
      Nat.and_lt_two_pow _ hmask
    rw [show 8 * 4 = 32 from rfl, Nat.mod_eq_of_lt hlt, if_pos hreg]
    unfold Memory.doRegisterMasking
    rw [Nat.mod_eq_of_lt (by simpa using hv)]
  · have hreg' : (m.pma a).reg = false := by simpa using hreg
    refine ⟨by rw [write_plain_eq m h a w v hW hStrad hreg'], ?_⟩
    rw [read_plain_eq ((m.write h a w v).2) a w
        (by rw [write_snd_pma]; exact hR)
        (by rw [write_snd_pma]; exact hStrad)
        (by rw [write_snd_pma]; exact hreg'),
      show (m.write h a w v).2.data = writeBytes m.data a w v from
        by rw [write_plain_eq m h a w v hW hStrad hreg'],
      readBytes_writeBytes, if_neg hreg, Nat.and_pow_two_sub_one_eq_mod]

/-- Witness for C5 at a concrete input: a word write of `0xAAAABBBB` to the
MMR word at 0 (mask `0xFFFF`) succeeds and reads back as the masked word. -/
theorem write_then_read_masked_witness :
    (memMMR.write 0 0 4 2863315899).1 = true ∧
    (memMMR.write 0 0 4 2863315899).2.read 4 0 =
      some (2863315899 &&&
        (if (memMMR.pma 0).reg = true then memMMR.getMemoryMappedMask 0
         else 2 ^ (8 * 4) - 1)) :=
  ⟨(write_then_read_masked memMMR 0 0 4 2863315899 (by decide) (by decide)
      (by decide) (by decide) (by decide) (by decide)).1,
   (write_then_read_masked memMMR 0 0 4 2863315899 (by decide) (by decide)
      (by decide) (by decide) (by decide) (by decide)).2⟩

/-- C6: on a memory-mapped-register page, a `read` succeeds only with word
width (`readByte` always fails, and a misaligned word read also fails),
and a `write` or `poke` succeeds only with word width at a word-aligned
address; every non-word-width or non-word-aligned access fails. -/
theorem mmr_requires_word_access (m : Memory) (a : Nat)
    (hreg : (m.pma a).reg = true) :
    (∀ w, w ≠ 4 → m.read w a = none) ∧
    m.readByte a = none ∧
    (a % 4 ≠ 0 → m.read 4 a = none) ∧
    (∀ h w v, (m.write h a w v).1 = true → w = 4 ∧ a % 4 = 0) ∧
    (∀ w v, (m.poke a w v).1 = true → w = 4 ∧ a % 4 = 0) := by
  refine ⟨?_, ?_, ?_, ?_, ?_⟩
  · intro w hw4
    unfold Memory.read
    split_ifs
    all_goals first | rfl | simp_all [Pma.isMemMappedReg]
  · unfold Memory.readByte
    split_ifs
    all_goals first | rfl | simp_all [Pma.isMemMappedReg]
  · intro hmis
    unfold Memory.read Memory.readRegister
    split_ifs
    all_goals first | rfl | simp_all [Pma.isMemMappedReg]
  · intro h w v hsucc
    unfold Memory.write Memory.writeRegister at hsucc
    split_ifs at hsucc
    all_goals first
      | (constructor <;> omega)
      | simp_all [Pma.isMemMappedReg]
  · intro w v hsucc
    unfold Memory.poke at hsucc
    split_ifs at hsucc
    all_goals first
      | (constructor <;> omega)
      | simp_all [Pma.isMemMappedReg]

/-- Witness for C6 at a concrete input: `readByte` on the MMR page of
`memMMR` fails. -/
theorem mmr_requires_word_access_witness :
    (memMMR.pma 0).reg = true ∧ memMMR.readByte 0 = none :=
  ⟨by decide, (mmr_requires_word_access memMMR 0 (by decide)).2.1⟩

end WdRiscv
